import Mathlib

set_option maxHeartbeats 1000000

/-! Shallow embedding of the Tango puzzle engine from the Rust source
(`src/main.rs`): the generic grid, the board with its placement rules and
validated mutation, the recursive backtracking solver, and the generator.
Machine integers (`usize`) are modelled as `Nat`; fallible operations
return `Except`/`Option`; in-place mutation becomes explicit state passing. -/

/-- Tile values of a Tango cell; `Empty` is the default value. -/
inductive TangoTile where
  | Empty
  | Red
  | Blue
deriving DecidableEq, Repr, Inhabited

/-- A pairwise relation between two grid coordinates. -/
inductive TangoRestriction where
  | Same : (Nat × Nat) → (Nat × Nat) → TangoRestriction
  | Different : (Nat × Nat) → (Nat × Nat) → TangoRestriction
deriving DecidableEq, Repr

/-- Generic fixed-size 2D container, row-major (`index = y * width + x`).
The Rust `Vec` backing it always has length `width * height` (established by
`Grid::new`, preserved by element writes); the embedding carries that
structural invariant as a proof field. -/
structure Grid (T : Type) where
  width : Nat
  height : Nat
  tiles : List T
  hlen : tiles.length = width * height

theorem Grid.gridExt {T : Type} {a b : Grid T} (hw : a.width = b.width)
    (hh : a.height = b.height) (ht : a.tiles = b.tiles) : a = b := by
  cases a; cases b
  cases hw; cases hh; cases ht
  rfl

instance {T : Type} [DecidableEq T] : DecidableEq (Grid T) := fun a b =>
  if h : a.width = b.width ∧ a.height = b.height ∧ a.tiles = b.tiles then
    Decidable.isTrue (Grid.gridExt h.1 h.2.1 h.2.2)
  else
    Decidable.isFalse (fun he => h (by cases he; exact ⟨rfl, rfl, rfl⟩))

/-- Rust `Grid::new`: allocates `width * height` cells at the default value. -/
def Grid.new (T : Type) [Inhabited T] (width height : Nat) : Grid T :=
  { width := width, height := height,
    tiles := List.replicate (width * height) default,
    hlen := List.length_replicate .. }

/-- Rust `Grid::get`: the tile at `(x, y)`, or `none` when out of bounds. -/
def Grid.get {T : Type} (g : Grid T) (x y : Nat) : Option T :=
  if x < g.width ∧ y < g.height then g.tiles[y * g.width + x]? else none

/-- Writing through `Grid::get_mut`: replaces the cell at `(x, y)` when it is
in bounds, and does nothing otherwise (mirroring `if let Some(c) = get_mut`). -/
def Grid.set {T : Type} (g : Grid T) (x y : Nat) (v : T) : Grid T :=
  if x < g.width ∧ y < g.height then
    { width := g.width, height := g.height,
      tiles := g.tiles.set (y * g.width + x) v,
      hlen := by rw [List.length_set]; exact g.hlen }
  else g

/-- The Tango board: a grid of tiles plus the list of restrictions. -/
structure Tango where
  grid : Grid TangoTile
  restrictions : List TangoRestriction

theorem Tango.tangoExt {a b : Tango} (hg : a.grid = b.grid)
    (hr : a.restrictions = b.restrictions) : a = b := by
  cases a; cases b
  cases hg; cases hr
  rfl

instance : DecidableEq Tango := fun a b =>
  if h : a.grid = b.grid ∧ a.restrictions = b.restrictions then
    Decidable.isTrue (Tango.tangoExt h.1 h.2)
  else
    Decidable.isFalse (fun he => h (by cases he; exact ⟨rfl, rfl⟩))

/-- Rust `Tango::new`: rejects zero or odd dimensions, otherwise an all-default
grid with the restriction list stored as given. -/
def Tango.new (width height : Nat) (restrictions : List TangoRestriction) :
    Except String Tango :=
  if width = 0 ∨ height = 0 then
    Except.error "Width and height must be greater than zero."
  else if width % 2 ≠ 0 ∨ height % 2 ≠ 0 then
    Except.error "Width and height must be even numbers."
  else
    Except.ok { grid := Grid.new TangoTile width height,
                restrictions := restrictions }

/-- Rust `Tango::get_tile`. -/
def Tango.getTile (t : Tango) (x y : Nat) : Option TangoTile :=
  t.grid.get x y

/-- Loop body of `Tango::is_valid_row`: walks the given x-indices carrying the
last seen tile, the consecutive-equal counter and both color tallies; a third
consecutive equal non-empty tile fails immediately, and at the end each
color's tally must be at most `width / 2`. -/
def Tango.rowLoop (t : Tango) (y : Nat) :
    List Nat → TangoTile → Nat → Nat → Nat → Bool
  | [], _, _, redCount, blueCount =>
      decide (redCount ≤ t.grid.width / 2) &&
      decide (blueCount ≤ t.grid.width / 2)
  | x :: xs, lastTile, consec, redCount, blueCount =>
      let redCount' :=
        if t.getTile x y = some TangoTile.Red then redCount + 1 else redCount
      let blueCount' :=
        if t.getTile x y = some TangoTile.Blue then blueCount + 1 else blueCount
      match t.getTile x y with
      | some tile =>
          if tile ≠ TangoTile.Empty ∧ tile = lastTile then
            if consec + 1 > 1 then false
            else Tango.rowLoop t y xs tile (consec + 1) redCount' blueCount'
          else Tango.rowLoop t y xs tile 0 redCount' blueCount'
      | none => Tango.rowLoop t y xs lastTile consec redCount' blueCount'

/-- Rust `Tango::is_valid_row`. -/
def Tango.isValidRow (t : Tango) (y : Nat) : Bool :=
  if t.grid.height ≤ y then false
  else Tango.rowLoop t y (List.range t.grid.width) TangoTile.Empty 0 0 0

/-- Loop body of `Tango::is_valid_column`, symmetric to `rowLoop` but walking
y-indices of a fixed column and bounding tallies by `height / 2`. -/
def Tango.colLoop (t : Tango) (x : Nat) :
    List Nat → TangoTile → Nat → Nat → Nat → Bool
  | [], _, _, redCount, blueCount =>
      decide (redCount ≤ t.grid.height / 2) &&
      decide (blueCount ≤ t.grid.height / 2)
  | y :: ys, lastTile, consec, redCount, blueCount =>
      let redCount' :=
        if t.getTile x y = some TangoTile.Red then redCount + 1 else redCount
      let blueCount' :=
        if t.getTile x y = some TangoTile.Blue then blueCount + 1 else blueCount
      match t.getTile x y with
      | some tile =>
          if tile ≠ TangoTile.Empty ∧ tile = lastTile then
            if consec + 1 > 1 then false
            else Tango.colLoop t x ys tile (consec + 1) redCount' blueCount'
          else Tango.colLoop t x ys tile 0 redCount' blueCount'
      | none => Tango.colLoop t x ys lastTile consec redCount' blueCount'

/-- Rust `Tango::is_valid_column`. -/
def Tango.isValidColumn (t : Tango) (x : Nat) : Bool :=
  if t.grid.width ≤ x then false
  else Tango.colLoop t x (List.range t.grid.height) TangoTile.Empty 0 0 0

/-- One restriction's check inside `Tango::check_restrictions`: a pair with an
out-of-bounds endpoint never matches, and an `Empty` endpoint is skipped. -/
def Tango.restrictionOk (t : Tango) : TangoRestriction → Bool
  | TangoRestriction.Same (x1, y1) (x2, y2) =>
      match t.getTile x1 y1, t.getTile x2 y2 with
      | some tile1, some tile2 =>
          if tile1 = TangoTile.Empty ∨ tile2 = TangoTile.Empty then true
          else decide (tile1 = tile2)
      | _, _ => true
  | TangoRestriction.Different (x1, y1) (x2, y2) =>
      match t.getTile x1 y1, t.getTile x2 y2 with
      | some tile1, some tile2 =>
          if tile1 = TangoTile.Empty ∨ tile2 = TangoTile.Empty then true
          else decide (tile1 ≠ tile2)
      | _, _ => true

/-- Rust `Tango::check_restrictions`: fails on the first violated restriction. -/
def Tango.checkRestrictions (t : Tango) : Bool :=
  t.restrictions.all t.restrictionOk

/-- Writing one cell of a board (the grid write step of `set_tile`). -/
def Tango.setCell (t : Tango) (x y : Nat) (v : TangoTile) : Tango :=
  { grid := t.grid.set x y v, restrictions := t.restrictions }

/-- Rust `Tango::set_tile`: record the previous value, write the new one, re-check
row `y`, column `x` and all restrictions; on failure restore the previous
value. Returns the success flag together with the resulting board. -/
def Tango.setTile (t : Tango) (x y : Nat) (tile : TangoTile) : Bool × Tango :=
  let prevTile := match t.grid.get x y with
    | some existing => existing
    | none => TangoTile.Empty
  let t1 := t.setCell x y tile
  if t1.isValidRow y && t1.isValidColumn x && t1.checkRestrictions then
    (true, t1)
  else
    (false, t1.setCell x y prevTile)

/-! Specification-side predicates for the row/column rules, written directly
from the natural statement of the rules, to be compared with the code's
`isValidRow`/`isValidColumn`. -/

/-- State-machine rendering of the run check alone: carrying the last tile and
the consecutive-equal counter, does some position see a third consecutive
equal non-empty tile? -/
def runFail : TangoTile → Nat → List TangoTile → Bool
  | _, _, [] => false
  | lastTile, consec, tile :: rest =>
      if tile ≠ TangoTile.Empty ∧ tile = lastTile then
        if consec + 1 > 1 then true else runFail tile (consec + 1) rest
      else runFail tile 0 rest

/-- Declarative run check: does the list contain three consecutive equal
non-empty tiles? -/
def hasRun3 : List TangoTile → Bool
  | a :: b :: c :: rest =>
      (decide (a ≠ TangoTile.Empty) && decide (a = b) && decide (b = c)) ||
      hasRun3 (b :: c :: rest)
  | _ => false

/-- The tile at `(x, y)` with `Empty` as the out-of-bounds default. -/
def tileAtD (t : Tango) (x y : Nat) : TangoTile :=
  (t.getTile x y).getD TangoTile.Empty

/-- The tiles of row `y`, left to right. -/
def rowTiles (t : Tango) (y : Nat) : List TangoTile :=
  (List.range t.grid.width).map fun x => tileAtD t x y

/-- The tiles of column `x`, top to bottom. -/
def colTiles (t : Tango) (x : Nat) : List TangoTile :=
  (List.range t.grid.height).map fun y => tileAtD t x y

theorem hasRun3_cons_skip (b tile : TangoTile) (rest : List TangoTile)
    (h : ¬(tile ≠ TangoTile.Empty ∧ tile = b)) :
    hasRun3 (b :: tile :: rest) = hasRun3 (tile :: rest) := by
  cases rest with
  | nil => rfl
  | cons c r2 =>
    have h1 : hasRun3 (b :: tile :: c :: r2) =
        ((decide (b ≠ TangoTile.Empty) && decide (b = tile) &&
          decide (tile = c)) || hasRun3 (tile :: c :: r2)) := rfl
    rw [h1]
    rcases not_and_or.mp h with h2 | h2
    · have ht : tile = TangoTile.Empty := not_not.mp h2
      subst ht
      by_cases hb : b = TangoTile.Empty
      · subst hb; simp
      · simp [hb]
    · have hbt : ¬(b = tile) := fun he => h2 he.symm
      simp [hbt]

theorem hasRun3_empty_cons (l : List TangoTile) :
    hasRun3 (TangoTile.Empty :: l) = hasRun3 l := by
  cases l with
  | nil => rfl
  | cons tile rest =>
    exact hasRun3_cons_skip _ _ _ (fun hc => hc.1 hc.2)

theorem runFail_cons (lastTile : TangoTile) (consec : Nat) (tile : TangoTile)
    (rest : List TangoTile) :
    runFail lastTile consec (tile :: rest) =
      if tile ≠ TangoTile.Empty ∧ tile = lastTile then
        if consec + 1 > 1 then true else runFail tile (consec + 1) rest
      else runFail tile 0 rest := by
  simp only [runFail]

theorem runFail_eq_hasRun3 (l : List TangoTile) :
    (∀ b : TangoTile, runFail b 0 l = hasRun3 (b :: l)) ∧
    (∀ a : TangoTile, a ≠ TangoTile.Empty →
      runFail a 1 l = hasRun3 (a :: a :: l)) := by
  induction l with
  | nil =>
    constructor
    · intro b; rfl
    · intro a _; rfl
  | cons tile rest ih =>
    constructor
    · intro b
      by_cases hc : tile ≠ TangoTile.Empty ∧ tile = b
      · have h1 : runFail b 0 (tile :: rest) = runFail tile 1 rest := by
          rw [runFail_cons, if_pos hc, if_neg (by decide : ¬(0 + 1 > 1))]
        rw [h1, (ih.2 tile hc.1)]
        rw [hc.2]
      · have h1 : runFail b 0 (tile :: rest) = runFail tile 0 rest := by
          rw [runFail_cons, if_neg hc]
        rw [h1, ih.1 tile, hasRun3_cons_skip b tile rest hc]
    · intro a ha
      by_cases hc : tile ≠ TangoTile.Empty ∧ tile = a
      · have h1 : runFail a 1 (tile :: rest) = true := by
          rw [runFail_cons, if_pos hc, if_pos (by decide : 1 + 1 > 1)]
        have h2 : hasRun3 (a :: a :: tile :: rest) = true := by
          have h3 : hasRun3 (a :: a :: tile :: rest) =
              ((decide (a ≠ TangoTile.Empty) && decide (a = a) &&
                decide (a = tile)) || hasRun3 (a :: tile :: rest)) := rfl
          rw [h3]
          simp [ha, hc.2.symm, hc.1]
        rw [h1, h2]
      · have h1 : runFail a 1 (tile :: rest) = runFail tile 0 rest := by
          rw [runFail_cons, if_neg hc]
        have h2 : ¬(a = tile) := by
          intro he
          exact hc ⟨he ▸ ha, he.symm⟩
        have h3 : hasRun3 (a :: a :: tile :: rest) =
            ((decide (a ≠ TangoTile.Empty) && decide (a = a) &&
              decide (a = tile)) || hasRun3 (a :: tile :: rest)) := rfl
        rw [h1, ih.1 tile, h3, hasRun3_cons_skip a tile rest hc]
        simp [h2]

theorem idxLt {w h x y : Nat} (hx : x < w) (hy : y < h) : y * w + x < w * h :=
  calc y * w + x < y * w + w := Nat.add_lt_add_left hx _
  _ = (y + 1) * w := (Nat.succ_mul y w).symm
  _ ≤ h * w := Nat.mul_le_mul_right w hy
  _ = w * h := Nat.mul_comm h w

theorem Tango.getTile_in (t : Tango) {x y : Nat} (hx : x < t.grid.width)
    (hy : y < t.grid.height) : t.getTile x y = some (tileAtD t x y) := by
  unfold tileAtD Tango.getTile Grid.get
  rw [if_pos ⟨hx, hy⟩]
  have hi : y * t.grid.width + x < t.grid.tiles.length := by
    rw [t.grid.hlen]; exact idxLt hx hy
  rw [List.getElem?_eq_getElem hi]
  rfl

theorem Tango.getTile_out (t : Tango) {x y : Nat}
    (h : ¬(x < t.grid.width ∧ y < t.grid.height)) : t.getTile x y = none := by
  unfold Tango.getTile Grid.get
  rw [if_neg h]

/-- The shared pure form of the row/column loop, over the list of tiles with
the half-length bound as a parameter. -/
def rcLoop (halfLen : Nat) : List TangoTile → TangoTile → Nat → Nat → Nat → Bool
  | [], _, _, redCount, blueCount =>
      decide (redCount ≤ halfLen) && decide (blueCount ≤ halfLen)
  | tile :: rest, lastTile, consec, redCount, blueCount =>
      let redCount' := if tile = TangoTile.Red then redCount + 1 else redCount
      let blueCount' := if tile = TangoTile.Blue then blueCount + 1 else blueCount
      if tile ≠ TangoTile.Empty ∧ tile = lastTile then
        if consec + 1 > 1 then false
        else rcLoop halfLen rest tile (consec + 1) redCount' blueCount'
      else rcLoop halfLen rest tile 0 redCount' blueCount'

theorem rowLoop_eq_rcLoop (t : Tango) (y : Nat) (hy : y < t.grid.height) :
    ∀ (xs : List Nat), (∀ x ∈ xs, x < t.grid.width) →
    ∀ lastTile consec redCount blueCount,
    t.rowLoop y xs lastTile consec redCount blueCount =
      rcLoop (t.grid.width / 2) (xs.map fun x => tileAtD t x y)
        lastTile consec redCount blueCount := by
  intro xs
  induction xs with
  | nil => intro _ lastTile consec redCount blueCount; rfl
  | cons x xs ih =>
    intro hmem lastTile consec redCount blueCount
    have hx : x < t.grid.width := hmem x (List.mem_cons_self x xs)
    have hrest : ∀ z ∈ xs, z < t.grid.width :=
      fun z hz => hmem z (List.mem_cons_of_mem x hz)
    simp only [Tango.rowLoop, List.map_cons, rcLoop, t.getTile_in hx hy,
      Option.some.injEq]
    by_cases h1 : tileAtD t x y ≠ TangoTile.Empty ∧ tileAtD t x y = lastTile
    · rw [if_pos h1, if_pos h1]
      by_cases h2 : consec + 1 > 1
      · rw [if_pos h2, if_pos h2]
      · rw [if_neg h2, if_neg h2, ih hrest]
    · rw [if_neg h1, if_neg h1, ih hrest]

theorem colLoop_eq_rcLoop (t : Tango) (x : Nat) (hx : x < t.grid.width) :
    ∀ (ys : List Nat), (∀ y ∈ ys, y < t.grid.height) →
    ∀ lastTile consec redCount blueCount,
    t.colLoop x ys lastTile consec redCount blueCount =
      rcLoop (t.grid.height / 2) (ys.map fun y => tileAtD t x y)
        lastTile consec redCount blueCount := by
  intro ys
  induction ys with
  | nil => intro _ lastTile consec redCount blueCount; rfl
  | cons y ys ih =>
    intro hmem lastTile consec redCount blueCount
    have hy : y < t.grid.height := hmem y (List.mem_cons_self y ys)
    have hrest : ∀ z ∈ ys, z < t.grid.height :=
      fun z hz => hmem z (List.mem_cons_of_mem y hz)
    simp only [Tango.colLoop, List.map_cons, rcLoop, t.getTile_in hx hy,
      Option.some.injEq]
    by_cases h1 : tileAtD t x y ≠ TangoTile.Empty ∧ tileAtD t x y = lastTile
    · rw [if_pos h1, if_pos h1]
      by_cases h2 : consec + 1 > 1
      · rw [if_pos h2, if_pos h2]
      · rw [if_neg h2, if_neg h2, ih hrest]
    · rw [if_neg h1, if_neg h1, ih hrest]

theorem rcLoop_eq (halfLen : Nat) (l : List TangoTile) :
    ∀ lastTile consec redCount blueCount,
    rcLoop halfLen l lastTile consec redCount blueCount =
      (!runFail lastTile consec l &&
       decide (redCount + l.count TangoTile.Red ≤ halfLen) &&
       decide (blueCount + l.count TangoTile.Blue ≤ halfLen)) := by
  induction l with
  | nil =>
    intro lastTile consec redCount blueCount
    simp [rcLoop, runFail]
  | cons tile rest ih =>
    intro lastTile consec redCount blueCount
    simp only [rcLoop, runFail_cons, List.count_cons, beq_iff_eq]
    have hred : (if tile = TangoTile.Red then redCount + 1 else redCount) +
        rest.count TangoTile.Red =
        redCount + (rest.count TangoTile.Red +
          if tile = TangoTile.Red then 1 else 0) := by
      split <;> omega
    have hblue : (if tile = TangoTile.Blue then blueCount + 1 else blueCount) +
        rest.count TangoTile.Blue =
        blueCount + (rest.count TangoTile.Blue +
          if tile = TangoTile.Blue then 1 else 0) := by
      split <;> omega
    by_cases h1 : tile ≠ TangoTile.Empty ∧ tile = lastTile
    · rw [if_pos h1, if_pos h1]
      by_cases h2 : consec + 1 > 1
      · rw [if_pos h2, if_pos h2]; simp
      · rw [if_neg h2, if_neg h2, ih, hred, hblue]
    · rw [if_neg h1, if_neg h1, ih, hred, hblue]

theorem Tango.isValidRow_iff (t : Tango) (y : Nat) (hy : y < t.grid.height) :
    t.isValidRow y = true ↔
      (hasRun3 (rowTiles t y) = false ∧
       (rowTiles t y).count TangoTile.Red ≤ t.grid.width / 2 ∧
       (rowTiles t y).count TangoTile.Blue ≤ t.grid.width / 2) := by
  unfold Tango.isValidRow
  rw [if_neg (Nat.not_le.mpr hy)]
  rw [rowLoop_eq_rcLoop t y hy (List.range t.grid.width)
    (fun x hx => List.mem_range.mp hx), rcLoop_eq]
  have h1 : runFail TangoTile.Empty 0
      ((List.range t.grid.width).map fun x => tileAtD t x y) =
      hasRun3 (rowTiles t y) := by
    rw [(runFail_eq_hasRun3 _).1, hasRun3_empty_cons]
    rfl
  rw [h1]
  show (!hasRun3 (rowTiles t y) &&
    decide (0 + (rowTiles t y).count TangoTile.Red ≤ t.grid.width / 2) &&
    decide (0 + (rowTiles t y).count TangoTile.Blue ≤ t.grid.width / 2)) =
      true ↔ _
  simp [Nat.zero_add, and_assoc]

theorem Tango.isValidColumn_iff (t : Tango) (x : Nat) (hx : x < t.grid.width) :
    t.isValidColumn x = true ↔
      (hasRun3 (colTiles t x) = false ∧
       (colTiles t x).count TangoTile.Red ≤ t.grid.height / 2 ∧
       (colTiles t x).count TangoTile.Blue ≤ t.grid.height / 2) := by
  unfold Tango.isValidColumn
  rw [if_neg (Nat.not_le.mpr hx)]
  rw [colLoop_eq_rcLoop t x hx (List.range t.grid.height)
    (fun y hy => List.mem_range.mp hy), rcLoop_eq]
  have h1 : runFail TangoTile.Empty 0
      ((List.range t.grid.height).map fun y => tileAtD t x y) =
      hasRun3 (colTiles t x) := by
    rw [(runFail_eq_hasRun3 _).1, hasRun3_empty_cons]
    rfl
  rw [h1]
  show (!hasRun3 (colTiles t x) &&
    decide (0 + (colTiles t x).count TangoTile.Red ≤ t.grid.height / 2) &&
    decide (0 + (colTiles t x).count TangoTile.Blue ≤ t.grid.height / 2)) =
      true ↔ _
  simp [Nat.zero_add, and_assoc]

theorem list_set_self {α : Type} : ∀ (l : List α) (i : Nat) (h : i < l.length),
    l.set i l[i] = l
  | _ :: _, 0, _ => rfl
  | a :: l, i + 1, h =>
      congrArg (a :: ·) (list_set_self l i (Nat.lt_of_succ_lt_succ h))

theorem Grid.set_width {T : Type} (g : Grid T) (x y : Nat) (v : T) :
    (g.set x y v).width = g.width := by
  unfold Grid.set; split <;> rfl

theorem Grid.set_height {T : Type} (g : Grid T) (x y : Nat) (v : T) :
    (g.set x y v).height = g.height := by
  unfold Grid.set; split <;> rfl

theorem Tango.setCell_width (t : Tango) (x y : Nat) (v : TangoTile) :
    (t.setCell x y v).grid.width = t.grid.width :=
  Grid.set_width ..

theorem Tango.setCell_height (t : Tango) (x y : Nat) (v : TangoTile) :
    (t.setCell x y v).grid.height = t.grid.height :=
  Grid.set_height ..

theorem Tango.setCell_restrictions (t : Tango) (x y : Nat) (v : TangoTile) :
    (t.setCell x y v).restrictions = t.restrictions := rfl

theorem Tango.setCell_out (t : Tango) {x y : Nat} (v : TangoTile)
    (h : ¬(x < t.grid.width ∧ y < t.grid.height)) : t.setCell x y v = t := by
  unfold Tango.setCell Grid.set
  rw [if_neg h]

theorem Tango.setCell_tiles_in (t : Tango) {x y : Nat} (v : TangoTile)
    (h : x < t.grid.width ∧ y < t.grid.height) :
    (t.setCell x y v).grid.tiles =
      t.grid.tiles.set (y * t.grid.width + x) v := by
  unfold Tango.setCell Grid.set
  rw [if_pos h]

theorem tileAtD_in (t : Tango) {x y : Nat} (hx : x < t.grid.width)
    (hy : y < t.grid.height)
    (hi : y * t.grid.width + x < t.grid.tiles.length) :
    tileAtD t x y = t.grid.tiles[y * t.grid.width + x] := by
  unfold tileAtD Tango.getTile Grid.get
  rw [if_pos ⟨hx, hy⟩, List.getElem?_eq_getElem hi]
  rfl

theorem Tango.setCell_setCell (t : Tango) (x y : Nat) (u v : TangoTile) :
    (t.setCell x y u).setCell x y v = t.setCell x y v := by
  by_cases h : x < t.grid.width ∧ y < t.grid.height
  · refine Tango.tangoExt ?_ rfl
    refine Grid.gridExt (by simp only [Tango.setCell_width])
      (by simp only [Tango.setCell_height]) ?_
    have h' : x < (t.setCell x y u).grid.width ∧
        y < (t.setCell x y u).grid.height := by
      rw [Tango.setCell_width, Tango.setCell_height]; exact h
    rw [Tango.setCell_tiles_in _ v h', Tango.setCell_tiles_in _ u h,
      Tango.setCell_tiles_in _ v h, Tango.setCell_width, List.set_set]
  · have h2 : ¬(x < (t.setCell x y u).grid.width ∧
        y < (t.setCell x y u).grid.height) := by
      rw [Tango.setCell_width, Tango.setCell_height]; exact h
    rw [Tango.setCell_out _ v h2, Tango.setCell_out _ u h,
      Tango.setCell_out _ v h]

theorem Tango.setCell_self (t : Tango) (x y : Nat) :
    t.setCell x y (tileAtD t x y) = t := by
  by_cases h : x < t.grid.width ∧ y < t.grid.height
  · refine Tango.tangoExt ?_ rfl
    refine Grid.gridExt (Tango.setCell_width ..) (Tango.setCell_height ..) ?_
    have hi : y * t.grid.width + x < t.grid.tiles.length := by
      rw [t.grid.hlen]; exact idxLt h.1 h.2
    rw [Tango.setCell_tiles_in _ _ h, tileAtD_in t h.1 h.2 hi,
      list_set_self _ _ hi]
  · exact Tango.setCell_out _ _ h

theorem Tango.prev_eq (t : Tango) (x y : Nat) :
    (match t.grid.get x y with
     | some existing => existing
     | none => TangoTile.Empty) = tileAtD t x y := by
  unfold tileAtD Tango.getTile
  cases t.grid.get x y <;> rfl

/-- Unfolded form of `set_tile`: the committed board on success, the
rolled-back board on failure. -/
theorem Tango.setTile_eq (t : Tango) (x y : Nat) (tile : TangoTile) :
    t.setTile x y tile =
      if (t.setCell x y tile).isValidRow y &&
         (t.setCell x y tile).isValidColumn x &&
         (t.setCell x y tile).checkRestrictions then
        (true, t.setCell x y tile)
      else
        (false, (t.setCell x y tile).setCell x y (tileAtD t x y)) := by
  simp only [Tango.setTile, Tango.prev_eq]

theorem Tango.setTile_fail (t : Tango) (x y : Nat) (tile : TangoTile)
    (h : (t.setTile x y tile).1 = false) : (t.setTile x y tile).2 = t := by
  rw [Tango.setTile_eq] at h ⊢
  by_cases hc : ((t.setCell x y tile).isValidRow y &&
      (t.setCell x y tile).isValidColumn x &&
      (t.setCell x y tile).checkRestrictions) = true
  · rw [if_pos hc] at h
    exact absurd h (by simp)
  · rw [if_neg hc, Tango.setCell_setCell, Tango.setCell_self]

theorem Tango.setTile_succ (t : Tango) (x y : Nat) (tile : TangoTile)
    (h : (t.setTile x y tile).1 = true) :
    (t.setTile x y tile).2 = t.setCell x y tile ∧
    (t.setCell x y tile).isValidRow y = true ∧
    (t.setCell x y tile).isValidColumn x = true ∧
    (t.setCell x y tile).checkRestrictions = true := by
  rw [Tango.setTile_eq] at h ⊢
  by_cases hc : ((t.setCell x y tile).isValidRow y &&
      (t.setCell x y tile).isValidColumn x &&
      (t.setCell x y tile).checkRestrictions) = true
  · rw [if_pos hc]
    simp only [Bool.and_eq_true] at hc
    exact ⟨rfl, hc.1.1, hc.1.2, hc.2⟩
  · rw [if_neg hc] at h
    exact absurd h (by simp)

theorem idx_inj {w x x' y y' : Nat} (hx : x < w) (hx' : x' < w)
    (he : y * w + x = y' * w + x') : x = x' ∧ y = y' := by
  have hw : 0 < w := Nat.lt_of_le_of_lt (Nat.zero_le x) hx
  have hm : ∀ a b : Nat, (a * w + b) % w = b % w := fun a b => by
    rw [Nat.add_comm]; exact Nat.add_mul_mod_self_right b a w
  have h1 : x = x' := by
    calc x = x % w := (Nat.mod_eq_of_lt hx).symm
    _ = (y * w + x) % w := (hm y x).symm
    _ = (y' * w + x') % w := by rw [he]
    _ = x' % w := hm y' x'
    _ = x' := Nat.mod_eq_of_lt hx'
  refine ⟨h1, ?_⟩
  subst h1
  have h2 : y * w = y' * w := Nat.add_right_cancel he
  exact Nat.eq_of_mul_eq_mul_right hw h2

theorem Tango.getTile_setCell_same (t : Tango) {x y : Nat} (v : TangoTile)
    (hx : x < t.grid.width) (hy : y < t.grid.height) :
    (t.setCell x y v).getTile x y = some v := by
  unfold Tango.getTile Grid.get
  rw [Tango.setCell_width, Tango.setCell_height, if_pos ⟨hx, hy⟩,
    Tango.setCell_tiles_in _ _ ⟨hx, hy⟩]
  exact List.getElem?_set_self (by rw [t.grid.hlen]; exact idxLt hx hy)

theorem Tango.getTile_setCell_other (t : Tango) {x y : Nat} (v : TangoTile)
    (x' y' : Nat) (hne : ¬(x' = x ∧ y' = y)) :
    (t.setCell x y v).getTile x' y' = t.getTile x' y' := by
  by_cases hb : x < t.grid.width ∧ y < t.grid.height
  · by_cases hb' : x' < t.grid.width ∧ y' < t.grid.height
    · unfold Tango.getTile Grid.get
      rw [Tango.setCell_width, Tango.setCell_height, if_pos hb', if_pos hb',
        Tango.setCell_tiles_in _ _ hb]
      refine List.getElem?_set_ne ?_
      intro he
      exact hne ⟨((idx_inj hb.1 hb'.1 he).1).symm,
        ((idx_inj hb.1 hb'.1 he).2).symm⟩
    · rw [Tango.getTile_out t hb']
      refine Tango.getTile_out _ ?_
      rw [Tango.setCell_width, Tango.setCell_height]
      exact hb'
  · rw [Tango.setCell_out _ _ hb]

theorem tileAtD_setCell_same (t : Tango) {x y : Nat} (v : TangoTile)
    (hx : x < t.grid.width) (hy : y < t.grid.height) :
    tileAtD (t.setCell x y v) x y = v := by
  unfold tileAtD
  rw [Tango.getTile_setCell_same t v hx hy]
  rfl

theorem tileAtD_setCell_other (t : Tango) {x y : Nat} (v : TangoTile)
    (x' y' : Nat) (hne : ¬(x' = x ∧ y' = y)) :
    tileAtD (t.setCell x y v) x' y' = tileAtD t x' y' := by
  unfold tileAtD
  rw [Tango.getTile_setCell_other t v x' y' hne]

theorem rowTiles_setCell_ne (t : Tango) (x y : Nat) (v : TangoTile)
    (y' : Nat) (hne : y' ≠ y) :
    rowTiles (t.setCell x y v) y' = rowTiles t y' := by
  unfold rowTiles
  rw [Tango.setCell_width]
  exact List.map_congr_left
    (fun x' _ => tileAtD_setCell_other t v x' y' (fun hp => hne hp.2))

theorem colTiles_setCell_ne (t : Tango) (x y : Nat) (v : TangoTile)
    (x' : Nat) (hne : x' ≠ x) :
    colTiles (t.setCell x y v) x' = colTiles t x' := by
  unfold colTiles
  rw [Tango.setCell_height]
  exact List.map_congr_left
    (fun y' _ => tileAtD_setCell_other t v x' y' (fun hp => hne hp.1))

theorem Tango.isValidRow_congr {t t' : Tango}
    (hw : t'.grid.width = t.grid.width) (hh : t'.grid.height = t.grid.height)
    (y : Nat) (hrt : rowTiles t' y = rowTiles t y) :
    t'.isValidRow y = t.isValidRow y := by
  by_cases hy : y < t.grid.height
  · have hy' : y < t'.grid.height := by rw [hh]; exact hy
    have h1 := t'.isValidRow_iff y hy'
    have h2 := t.isValidRow_iff y hy
    rw [hrt, hw] at h1
    cases hb : t.isValidRow y
    · cases hb' : t'.isValidRow y
      · rfl
      · exact absurd (h2.mpr (h1.mp hb')) (by simp [hb])
    · exact h1.mpr (h2.mp hb)
  · unfold Tango.isValidRow
    rw [if_pos (Nat.le_of_not_lt hy), if_pos (by rw [hh]; exact Nat.le_of_not_lt hy)]

theorem Tango.isValidColumn_congr {t t' : Tango}
    (hw : t'.grid.width = t.grid.width) (hh : t'.grid.height = t.grid.height)
    (x : Nat) (hct : colTiles t' x = colTiles t x) :
    t'.isValidColumn x = t.isValidColumn x := by
  by_cases hx : x < t.grid.width
  · have hx' : x < t'.grid.width := by rw [hw]; exact hx
    have h1 := t'.isValidColumn_iff x hx'
    have h2 := t.isValidColumn_iff x hx
    rw [hct, hh] at h1
    cases hb : t.isValidColumn x
    · cases hb' : t'.isValidColumn x
      · rfl
      · exact absurd (h2.mpr (h1.mp hb')) (by simp [hb])
    · exact h1.mpr (h2.mp hb)
  · unfold Tango.isValidColumn
    rw [if_pos (Nat.le_of_not_lt hx), if_pos (by rw [hw]; exact Nat.le_of_not_lt hx)]

/-- All rows, all columns and all restrictions pass the code's own checks. -/
def boardValid (t : Tango) : Bool :=
  ((List.range t.grid.height).all fun y => t.isValidRow y) &&
  ((List.range t.grid.width).all fun x => t.isValidColumn x) &&
  t.checkRestrictions

theorem boardValid_iff (t : Tango) :
    boardValid t = true ↔
      (∀ y, y < t.grid.height → t.isValidRow y = true) ∧
      (∀ x, x < t.grid.width → t.isValidColumn x = true) ∧
      t.checkRestrictions = true := by
  simp [boardValid, List.all_eq_true, List.mem_range, and_assoc]

theorem Tango.isValidRow_lt (t : Tango) (y : Nat)
    (h : t.isValidRow y = true) : y < t.grid.height := by
  by_contra hy
  unfold Tango.isValidRow at h
  rw [if_pos (Nat.le_of_not_lt hy)] at h
  exact Bool.false_ne_true h

theorem Tango.isValidColumn_lt (t : Tango) (x : Nat)
    (h : t.isValidColumn x = true) : x < t.grid.width := by
  by_contra hx
  unfold Tango.isValidColumn at h
  rw [if_pos (Nat.le_of_not_lt hx)] at h
  exact Bool.false_ne_true h

/-- Success of `set_tile` preserves validity of the whole board: the mutated
row, column and the restrictions are re-checked, and every other row or
column reads the same tiles as before the write. -/
theorem Tango.setTile_boardValid (t : Tango) (x y : Nat) (tile : TangoTile)
    (hv : boardValid t = true) : boardValid (t.setTile x y tile).2 = true := by
  cases hfl : (t.setTile x y tile).1 with
  | false => rw [Tango.setTile_fail t x y tile hfl]; exact hv
  | true =>
    obtain ⟨hb, hrow, hcol, hres⟩ := Tango.setTile_succ t x y tile hfl
    rw [hb]
    obtain ⟨hv1, hv2, hv3⟩ := (boardValid_iff t).mp hv
    have hy : y < t.grid.height := by
      have := (t.setCell x y tile).isValidRow_lt y hrow
      rw [Tango.setCell_height] at this
      exact this
    have hx : x < t.grid.width := by
      have := (t.setCell x y tile).isValidColumn_lt x hcol
      rw [Tango.setCell_width] at this
      exact this
    refine (boardValid_iff _).mpr ⟨?_, ?_, hres⟩
    · intro y' hy'
      by_cases hyy : y' = y
      · rw [hyy]; exact hrow
      · rw [Tango.isValidRow_congr (Tango.setCell_width ..)
          (Tango.setCell_height ..) y' (rowTiles_setCell_ne t x y tile y' hyy)]
        rw [Tango.setCell_height] at hy'
        exact hv1 y' hy'
    · intro x' hx'
      by_cases hxx : x' = x
      · rw [hxx]; exact hcol
      · rw [Tango.isValidColumn_congr (Tango.setCell_width ..)
          (Tango.setCell_height ..) x' (colTiles_setCell_ne t x y tile x' hxx)]
        rw [Tango.setCell_width] at hx'
        exact hv2 x' hx'

/-- Facts about a successfully constructed board. -/
theorem Tango.new_ok (w h : Nat) (r : List TangoRestriction) (t : Tango)
    (hok : Tango.new w h r = Except.ok t) :
    t.grid.width = w ∧ t.grid.height = h ∧
    t.grid.tiles = List.replicate (w * h) TangoTile.Empty ∧
    t.restrictions = r ∧
    w ≠ 0 ∧ h ≠ 0 ∧ w % 2 = 0 ∧ h % 2 = 0 := by
  unfold Tango.new at hok
  by_cases h1 : w = 0 ∨ h = 0
  · rw [if_pos h1] at hok; exact absurd hok (by simp)
  · rw [if_neg h1] at hok
    by_cases h2 : w % 2 ≠ 0 ∨ h % 2 ≠ 0
    · rw [if_pos h2] at hok; exact absurd hok (by simp)
    · rw [if_neg h2] at hok
      have ht : t = { grid := Grid.new TangoTile w h, restrictions := r } := by
        cases hok; rfl
      push_neg at h1 h2
      subst ht
      exact ⟨rfl, rfl, rfl, rfl, h1.1, h1.2, h2.1, h2.2⟩

/-- The failure side of construction. -/
theorem Tango.new_err (w h : Nat) (r : List TangoRestriction)
    (hbad : w = 0 ∨ h = 0 ∨ w % 2 ≠ 0 ∨ h % 2 ≠ 0) :
    ∃ msg, Tango.new w h r = Except.error msg := by
  unfold Tango.new
  by_cases h1 : w = 0 ∨ h = 0
  · rw [if_pos h1]; exact ⟨_, rfl⟩
  · rw [if_neg h1]
    have h2 : w % 2 ≠ 0 ∨ h % 2 ≠ 0 := by
      push_neg at h1
      rcases hbad with hb | hb | hb | hb
      · exact absurd hb h1.1
      · exact absurd hb h1.2
      · exact Or.inl hb
      · exact Or.inr hb
    rw [if_pos h2]
    exact ⟨_, rfl⟩

theorem hasRun3_replicate_empty (n : Nat) :
    hasRun3 (List.replicate n TangoTile.Empty) = false := by
  induction n with
  | zero => rfl
  | succ m ih => rw [List.replicate_succ, hasRun3_empty_cons]; exact ih

theorem allEmpty_getTile (t : Tango)
    (he : t.grid.tiles = List.replicate (t.grid.width * t.grid.height)
      TangoTile.Empty) (x y : Nat) :
    t.getTile x y = none ∨ t.getTile x y = some TangoTile.Empty := by
  by_cases hb : x < t.grid.width ∧ y < t.grid.height
  · right
    rw [t.getTile_in hb.1 hb.2]
    have hi : y * t.grid.width + x < t.grid.tiles.length := by
      rw [t.grid.hlen]; exact idxLt hb.1 hb.2
    rw [tileAtD_in t hb.1 hb.2 hi]
    have hrep : t.grid.tiles[y * t.grid.width + x] = TangoTile.Empty := by
      simp [he]
    rw [hrep]
  · left; exact t.getTile_out hb

theorem allEmpty_boardValid (t : Tango)
    (he : t.grid.tiles = List.replicate (t.grid.width * t.grid.height)
      TangoTile.Empty) : boardValid t = true := by
  have htile : ∀ x y, x < t.grid.width → y < t.grid.height →
      tileAtD t x y = TangoTile.Empty := by
    intro x y hx hy
    rcases allEmpty_getTile t he x y with hn | hs
    · rw [t.getTile_in hx hy] at hn; exact absurd hn (by simp)
    · rw [t.getTile_in hx hy] at hs
      exact Option.some.inj hs
  refine (boardValid_iff t).mpr ⟨?_, ?_, ?_⟩
  · intro y hy
    refine (t.isValidRow_iff y hy).mpr ?_
    have hrt : rowTiles t y = List.replicate t.grid.width TangoTile.Empty := by
      unfold rowTiles
      rw [List.map_congr_left (fun x hx =>
        htile x y (List.mem_range.mp hx) hy), List.map_const']
      rw [List.length_range]
    rw [hrt, hasRun3_replicate_empty]
    refine ⟨rfl, ?_, ?_⟩ <;> simp [List.count_replicate]
  · intro x hx
    refine (t.isValidColumn_iff x hx).mpr ?_
    have hct : colTiles t x = List.replicate t.grid.height TangoTile.Empty := by
      unfold colTiles
      rw [List.map_congr_left (fun y hy =>
        htile x y hx (List.mem_range.mp hy)), List.map_const']
      rw [List.length_range]
    rw [hct, hasRun3_replicate_empty]
    refine ⟨rfl, ?_, ?_⟩ <;> simp [List.count_replicate]
  · unfold Tango.checkRestrictions
    rw [List.all_eq_true]
    intro r _
    rcases r with ⟨⟨x1, y1⟩, ⟨x2, y2⟩⟩ | ⟨⟨x1, y1⟩, ⟨x2, y2⟩⟩ <;>
      rcases allEmpty_getTile t he x1 y1 with h1 | h1 <;>
      rcases allEmpty_getTile t he x2 y2 with h2 | h2 <;>
      simp [Tango.restrictionOk, h1, h2]

/-- Board states reachable through the public API: construction via
`Tango::new` followed by any sequence of `set_tile` calls. -/
inductive Reachable : Tango → Prop where
  | base (w h : Nat) (r : List TangoRestriction) (t : Tango) :
      Tango.new w h r = Except.ok t → Reachable t
  | step (t : Tango) (x y : Nat) (tile : TangoTile) :
      Reachable t → Reachable (t.setTile x y tile).2

theorem reachable_boardValid (t : Tango) (h : Reachable t) :
    boardValid t = true := by
  induction h with
  | base w hh r t hok =>
    obtain ⟨hw, hht, htl, -, -⟩ := Tango.new_ok w hh r t hok
    exact allEmpty_boardValid t (by rw [htl, hw, hht])
  | step t x y tile _ ih =>
    exact Tango.setTile_boardValid t x y tile ih

/-- A restriction is satisfied, stated declaratively: whenever both endpoints
hold non-empty tiles, `Same` endpoints are equal and `Different` endpoints
are unequal. -/
def restrictionHolds (t : Tango) : TangoRestriction → Prop
  | TangoRestriction.Same p q =>
      ∀ a b, t.getTile p.1 p.2 = some a → t.getTile q.1 q.2 = some b →
        a ≠ TangoTile.Empty → b ≠ TangoTile.Empty → a = b
  | TangoRestriction.Different p q =>
      ∀ a b, t.getTile p.1 p.2 = some a → t.getTile q.1 q.2 = some b →
        a ≠ TangoTile.Empty → b ≠ TangoTile.Empty → a ≠ b

theorem restrictionOk_holds (t : Tango) (r : TangoRestriction)
    (h : t.restrictionOk r = true) : restrictionHolds t r := by
  rcases r with ⟨⟨x1, y1⟩, ⟨x2, y2⟩⟩ | ⟨⟨x1, y1⟩, ⟨x2, y2⟩⟩ <;>
    intro a b ha hb hna hnb <;>
    simp only [Tango.restrictionOk, ha, hb] at h <;>
    rw [if_neg (by tauto)] at h
  · exact of_decide_eq_true h
  · exact of_decide_eq_true h

/-! The recursive solver. The Rust `solve_recursive` mutates `self.tango` and
scans row-major for the first `Empty` cell; the embedding passes the board
explicitly and returns it with the count. Rust's unbounded recursion (which
strictly decreases the number of `Empty` cells, see `countEmpty_setTile_red`
and `countEmpty_setTile_blue` below) is rendered with a fuel parameter; the
entry point supplies `countEmpty` as fuel, which is shown sufficient in
`solveRecAux_spec`. -/

/-- All coordinates in row-major scan order (`for y { for x }`). -/
def Tango.cellsRowMajor (t : Tango) : List (Nat × Nat) :=
  (List.range t.grid.height).flatMap fun y =>
    (List.range t.grid.width).map fun x => (x, y)

/-- The first `Empty` cell in row-major order, if any. -/
def Tango.firstEmpty (t : Tango) : Option (Nat × Nat) :=
  t.cellsRowMajor.find? fun p => t.getTile p.1 p.2 == some TangoTile.Empty

/-- Number of `Empty` cells of the board. -/
def countEmpty (t : Tango) : Nat :=
  t.grid.tiles.count TangoTile.Empty

/-- One candidate-color block of `solve_recursive`: `s` is the result of the
`set_tile` attempt, `r` the value of the recursive call on `s`'s board (only
consulted when the attempt succeeded, exactly as the source only recurses
then). On `result > 0` in find-one mode the whole call returns immediately
(`Sum.inl`), skipping the reset; otherwise the cell is reset to `Empty` and
the loop continues (`Sum.inr` carries the updated accumulator and board). -/
def solveStep (cm : Bool) (x y : Nat) (s : Bool × Tango) (r : Nat × Tango)
    (t : Tango) (acc : Nat) : (Nat × Tango) ⊕ (Nat × Tango) :=
  if s.1 then
    if 0 < r.1 ∧ cm = false then Sum.inl r
    else Sum.inr (if 0 < r.1 then r.1 else acc,
      (Tango.setTile r.2 x y TangoTile.Empty).2)
  else Sum.inr (acc, (Tango.setTile t x y TangoTile.Empty).2)

/-- Rust `RecursiveTangoSolver::solve_recursive`, fuel-indexed: the scan for the
first `Empty` cell happens before any fuel is consumed, so a full board needs
no fuel at all; the fuel-exhausted branch is dead code once the fuel is at
least the number of empty cells (`solveRecAux_spec`). -/
def solveRecAux (cm : Bool) : Nat → Tango → Nat → Nat × Tango
  | 0, t, acc =>
    match t.firstEmpty with
    | none => (acc + 1, t)
    | some _ => (acc, t)
  | fuel' + 1, t, acc =>
    match t.firstEmpty with
    | none => (acc + 1, t)
    | some (x, y) =>
      let sR := t.setTile x y TangoTile.Red
      match solveStep cm x y sR (solveRecAux cm fuel' sR.2 acc) t acc with
      | Sum.inl res => res
      | Sum.inr (acc1, t1) =>
        let sB := t1.setTile x y TangoTile.Blue
        match solveStep cm x y sB (solveRecAux cm fuel' sB.2 acc1) t1 acc1 with
        | Sum.inl res => res
        | Sum.inr (acc2, t2) => (acc2, t2)

/-- Rust `RecursiveTangoSolver::solve`: the method mutates `self.tango` and
returns the count, so the embedding returns both the count and the final
board state. -/
def RecursiveTangoSolver.solve (counterMode : Bool) (tango : Tango) :
    Nat × Tango :=
  solveRecAux counterMode (countEmpty tango) tango 0

theorem solveRecAux_zero (cm : Bool) (t : Tango) (acc : Nat) :
    solveRecAux cm 0 t acc =
      match t.firstEmpty with
      | none => (acc + 1, t)
      | some _ => (acc, t) := by
  simp only [solveRecAux]

theorem solveRecAux_succ (cm : Bool) (fuel' : Nat) (t : Tango) (acc : Nat) :
    solveRecAux cm (fuel' + 1) t acc =
      match t.firstEmpty with
      | none => (acc + 1, t)
      | some (x, y) =>
        let sR := t.setTile x y TangoTile.Red
        match solveStep cm x y sR (solveRecAux cm fuel' sR.2 acc) t acc with
        | Sum.inl res => res
        | Sum.inr (acc1, t1) =>
          let sB := t1.setTile x y TangoTile.Blue
          match solveStep cm x y sB (solveRecAux cm fuel' sB.2 acc1) t1
              acc1 with
          | Sum.inl res => res
          | Sum.inr (acc2, t2) => (acc2, t2) := by
  simp only [solveRecAux]

theorem Tango.mem_cellsRowMajor (t : Tango) (x y : Nat) :
    (x, y) ∈ t.cellsRowMajor ↔ x < t.grid.width ∧ y < t.grid.height := by
  unfold Tango.cellsRowMajor
  simp only [List.mem_flatMap, List.mem_map, List.mem_range, Prod.mk.injEq]
  constructor
  · rintro ⟨y', hy', x', hx', hxx, hyy⟩
    exact ⟨hxx ▸ hx', hyy ▸ hy'⟩
  · rintro ⟨hx, hy⟩
    exact ⟨y, hy, x, hx, rfl, rfl⟩

theorem Tango.firstEmpty_some (t : Tango) (x y : Nat)
    (h : t.firstEmpty = some (x, y)) :
    x < t.grid.width ∧ y < t.grid.height ∧
    t.getTile x y = some TangoTile.Empty := by
  have hm := List.mem_of_find?_eq_some h
  have hp := List.find?_some h
  rw [t.mem_cellsRowMajor x y] at hm
  refine ⟨hm.1, hm.2, ?_⟩
  exact eq_of_beq hp

theorem countEmpty_pos_of_firstEmpty (t : Tango) (x y : Nat)
    (h : t.firstEmpty = some (x, y)) : 0 < countEmpty t := by
  obtain ⟨hx, hy, hcell⟩ := t.firstEmpty_some x y h
  have hi : y * t.grid.width + x < t.grid.tiles.length := by
    rw [t.grid.hlen]; exact idxLt hx hy
  have hat : tileAtD t x y = TangoTile.Empty := by
    have := t.getTile_in hx hy
    rw [hcell] at this
    exact (Option.some.inj this).symm
  rw [tileAtD_in t hx hy hi] at hat
  have hmem : TangoTile.Empty ∈ t.grid.tiles := by
    rw [← hat]
    exact List.getElem_mem hi
  exact List.count_pos_iff.mpr hmem

theorem list_count_set_of_ne {α : Type} [DecidableEq α] :
    ∀ (l : List α) (i : Nat) (hi : i < l.length) (a c : α), l[i] = a → c ≠ a →
      (l.set i c).count a + 1 = l.count a
  | b :: l', 0, _, a, c, hb, hc => by
    have hb' : b = a := hb
    subst hb'
    simp [List.count_cons, hc]
  | b :: l', i + 1, hi, a, c, hb, hc => by
    have hi' : i < l'.length := by simpa using hi
    have hb' : l'[i] = a := hb
    have ih := list_count_set_of_ne l' i hi' a c hb' hc
    simp only [List.set_cons_succ, List.count_cons]
    omega

theorem countEmpty_setCell (t : Tango) {x y : Nat} (hx : x < t.grid.width)
    (hy : y < t.grid.height) (hcur : tileAtD t x y = TangoTile.Empty)
    (c : TangoTile) (hc : c ≠ TangoTile.Empty) :
    countEmpty (t.setCell x y c) + 1 = countEmpty t := by
  have hi : y * t.grid.width + x < t.grid.tiles.length := by
    rw [t.grid.hlen]; exact idxLt hx hy
  unfold countEmpty
  rw [Tango.setCell_tiles_in _ _ ⟨hx, hy⟩]
  rw [tileAtD_in t hx hy hi] at hcur
  exact list_count_set_of_ne _ _ hi _ _ hcur hc

theorem tileAtD_of_getTile (t : Tango) {x y : Nat} {v : TangoTile}
    (h : t.getTile x y = some v) : tileAtD t x y = v := by
  unfold tileAtD
  rw [h]
  rfl

/-- Setting an `Empty` cell to `Empty` on a valid board succeeds and changes
nothing. -/
theorem Tango.setTile_empty_self (t : Tango) {x y : Nat}
    (hx : x < t.grid.width) (hy : y < t.grid.height)
    (hv : boardValid t = true) (hcur : tileAtD t x y = TangoTile.Empty) :
    t.setTile x y TangoTile.Empty = (true, t) := by
  have h0 : t.setCell x y TangoTile.Empty = t := by
    rw [← hcur]; exact t.setCell_self x y
  obtain ⟨h1, h2, h3⟩ := (boardValid_iff t).mp hv
  rw [Tango.setTile_eq, h0, if_pos (by simp [h1 y hy, h2 x hx, h3])]

/-- Resetting a just-written cell back to `Empty` restores the original valid
board (the reset's own checks pass because the original board was valid). -/
theorem Tango.setTile_empty_restore (t : Tango) {x y : Nat} (c : TangoTile)
    (hx : x < t.grid.width) (hy : y < t.grid.height)
    (hv : boardValid t = true) (hcur : tileAtD t x y = TangoTile.Empty) :
    (t.setCell x y c).setTile x y TangoTile.Empty = (true, t) := by
  have h0 : (t.setCell x y c).setCell x y TangoTile.Empty = t := by
    rw [Tango.setCell_setCell, ← hcur]; exact t.setCell_self x y
  obtain ⟨h1, h2, h3⟩ := (boardValid_iff t).mp hv
  rw [Tango.setTile_eq, h0, if_pos (by simp [h1 y hy, h2 x hx, h3])]

theorem countEmpty_setTile (t : Tango) {x y : Nat} (c : TangoTile)
    (hc : c ≠ TangoTile.Empty) (hx : x < t.grid.width)
    (hy : y < t.grid.height) (hcur : tileAtD t x y = TangoTile.Empty)
    (hs : (t.setTile x y c).1 = true) :
    countEmpty (t.setTile x y c).2 + 1 = countEmpty t := by
  rw [(Tango.setTile_succ t x y c hs).1]
  exact countEmpty_setCell t hx hy hcur c hc

theorem solveStep_fail {cm : Bool} {x y : Nat} {s : Bool × Tango}
    {r : Nat × Tango} {t : Tango} {acc : Nat} (h : s.1 = false) :
    solveStep cm x y s r t acc =
      Sum.inr (acc, (Tango.setTile t x y TangoTile.Empty).2) := by
  simp [solveStep, h]

theorem solveStep_true_mode {x y : Nat} {s : Bool × Tango} {r : Nat × Tango}
    {t : Tango} {acc : Nat} (h : s.1 = true) :
    solveStep true x y s r t acc =
      Sum.inr (if 0 < r.1 then r.1 else acc,
        (Tango.setTile r.2 x y TangoTile.Empty).2) := by
  simp [solveStep, h]

theorem solveStep_false_pos {x y : Nat} {s : Bool × Tango} {r : Nat × Tango}
    {t : Tango} {acc : Nat} (h : s.1 = true) (hr : 0 < r.1) :
    solveStep false x y s r t acc = Sum.inl r := by
  simp [solveStep, h, hr]

theorem solveStep_false_zero {x y : Nat} {s : Bool × Tango} {r : Nat × Tango}
    {t : Tango} {acc : Nat} (h : s.1 = true) (hr : r.1 = 0) :
    solveStep false x y s r t acc =
      Sum.inr (acc, (Tango.setTile r.2 x y TangoTile.Empty).2) := by
  simp [solveStep, h, hr]

theorem solveRecAux_none (cm : Bool) (fuel : Nat) (t : Tango) (acc : Nat)
    (hfe : t.firstEmpty = none) : solveRecAux cm fuel t acc = (acc + 1, t) := by
  cases fuel with
  | zero => rw [solveRecAux_zero, hfe]
  | succ fuel' => rw [solveRecAux_succ, hfe]

theorem solveRecAux_zero_some (cm : Bool) (t : Tango) (acc : Nat)
    (x y : Nat) (hfe : t.firstEmpty = some (x, y)) :
    solveRecAux cm 0 t acc = (acc, t) := by
  rw [solveRecAux_zero, hfe]

theorem solveRecAux_succ_some (cm : Bool) (fuel' : Nat) (t : Tango)
    (acc : Nat) (x y : Nat) (hfe : t.firstEmpty = some (x, y)) :
    solveRecAux cm (fuel' + 1) t acc =
      (let sR := t.setTile x y TangoTile.Red
       match solveStep cm x y sR (solveRecAux cm fuel' sR.2 acc) t acc with
       | Sum.inl res => res
       | Sum.inr (acc1, t1) =>
         let sB := t1.setTile x y TangoTile.Blue
         match solveStep cm x y sB (solveRecAux cm fuel' sB.2 acc1) t1
             acc1 with
         | Sum.inl res => res
         | Sum.inr (acc2, t2) => (acc2, t2)) := by
  rw [solveRecAux_succ, hfe]

/-- One full candidate-color block on a valid board whose cell `(x, y)` is the
first empty one: either the call short-circuits (find-one mode, a completion
was found below), or the block ends with the cell reset and the board exactly
as it entered. -/
theorem solveStep_block (cm : Bool) (fuel : Nat) (t : Tango) (x y : Nat)
    (c : TangoTile) (acc : Nat) (hv : boardValid t = true)
    (hx : x < t.grid.width) (hy : y < t.grid.height)
    (hcur : tileAtD t x y = TangoTile.Empty) (hc : c ≠ TangoTile.Empty)
    (hcnt : countEmpty t ≤ fuel + 1)
    (ihD : ∀ t' acc', boardValid t' = true → countEmpty t' ≤ fuel →
      acc' ≤ (solveRecAux cm fuel t' acc').1)
    (ihA : cm = true → ∀ t' acc', boardValid t' = true →
      countEmpty t' ≤ fuel → (solveRecAux true fuel t' acc').2 = t')
    (ihB : cm = false → ∀ t', boardValid t' = true → countEmpty t' ≤ fuel →
      (solveRecAux false fuel t' 0).1 = 0 →
      (solveRecAux false fuel t' 0).2 = t') :
    (∃ res : Nat × Tango, 0 < res.1 ∧ acc ≤ res.1 ∧ cm = false ∧
      solveStep cm x y (t.setTile x y c)
        (solveRecAux cm fuel (t.setTile x y c).2 acc) t acc = Sum.inl res) ∨
    (∃ acc1 : Nat, acc ≤ acc1 ∧ (cm = false → acc1 = acc) ∧
      solveStep cm x y (t.setTile x y c)
        (solveRecAux cm fuel (t.setTile x y c).2 acc) t acc =
        Sum.inr (acc1, t)) := by
  cases hs : (t.setTile x y c).1 with
  | false =>
    right
    refine ⟨acc, Nat.le_refl acc, fun _ => rfl, ?_⟩
    rw [solveStep_fail hs, Tango.setTile_empty_self t hx hy hv hcur]
  | true =>
    have hvalid' : boardValid (t.setTile x y c).2 = true :=
      Tango.setTile_boardValid t x y c hv
    have hdec := countEmpty_setTile t c hc hx hy hcur hs
    have hfuel : countEmpty (t.setTile x y c).2 ≤ fuel := by omega
    · cases cm with
      | true =>
        right
        have hrec := ihA rfl (t.setTile x y c).2 acc hvalid' hfuel
        refine ⟨if 0 < (solveRecAux true fuel (t.setTile x y c).2 acc).1 then
            (solveRecAux true fuel (t.setTile x y c).2 acc).1 else acc,
          ?_, fun hf => absurd hf (by simp), ?_⟩
        · by_cases hr : 0 < (solveRecAux true fuel (t.setTile x y c).2 acc).1
          · rw [if_pos hr]
            exact ihD (t.setTile x y c).2 acc hvalid' hfuel
          · rw [if_neg hr]
        · rw [solveStep_true_mode hs, hrec, (Tango.setTile_succ t x y c hs).1,
            Tango.setTile_empty_restore t c hx hy hv hcur]
      | false =>
        by_cases hr : 0 < (solveRecAux false fuel (t.setTile x y c).2 acc).1
        · exact Or.inl ⟨_, hr, ihD (t.setTile x y c).2 acc hvalid' hfuel, rfl,
            solveStep_false_pos hs hr⟩
        · right
          have hr0 : (solveRecAux false fuel (t.setTile x y c).2 acc).1 = 0 :=
            by omega
          have hacc0 : acc = 0 := by
            have := ihD (t.setTile x y c).2 acc hvalid' hfuel
            omega
          subst hacc0
          have hrec := ihB rfl (t.setTile x y c).2 hvalid' hfuel hr0
          refine ⟨0, Nat.le_refl 0, fun _ => rfl, ?_⟩
          rw [solveStep_false_zero hs hr0, hrec,
            (Tango.setTile_succ t x y c hs).1,
            Tango.setTile_empty_restore t c hx hy hv hcur]

/-- Master property of the fuel-indexed solver on valid boards with enough
fuel: the returned count never drops below the accumulator; count mode
restores the board exactly; find-one mode restores it whenever no completion
was found; and any fuel at or above the number of empty cells computes the
same result (so the entry point's `countEmpty` fuel is sufficient and the Rust
recursion it models terminates). -/
theorem solveRecAux_spec (fuel : Nat) :
    ∀ (t : Tango), boardValid t = true → countEmpty t ≤ fuel →
      (∀ cm acc, acc ≤ (solveRecAux cm fuel t acc).1) ∧
      (∀ acc, (solveRecAux true fuel t acc).2 = t) ∧
      ((solveRecAux false fuel t 0).1 = 0 →
        (solveRecAux false fuel t 0).2 = t) ∧
      (∀ cm acc, solveRecAux cm fuel t acc =
        solveRecAux cm (countEmpty t) t acc) := by
  induction fuel using Nat.strong_induction_on with
  | _ fuel ih =>
  intro t hv hc
  cases hfe : t.firstEmpty with
  | none =>
    refine ⟨?_, ?_, ?_, ?_⟩
    · intro cm acc
      rw [solveRecAux_none cm fuel t acc hfe]
      exact Nat.le_succ acc
    · intro acc
      rw [solveRecAux_none true fuel t acc hfe]
    · intro h'
      rw [solveRecAux_none false fuel t 0 hfe]
    · intro cm acc
      rw [solveRecAux_none cm fuel t acc hfe,
        solveRecAux_none cm (countEmpty t) t acc hfe]
  | some p =>
    obtain ⟨x, y⟩ := p
    cases fuel with
    | zero =>
      exact absurd hc
        (by have := countEmpty_pos_of_firstEmpty t x y hfe; omega)
    | succ fuel' =>
      obtain ⟨hx, hy, hcell⟩ := t.firstEmpty_some x y hfe
      have hcur : tileAtD t x y = TangoTile.Empty := tileAtD_of_getTile t hcell
      have hpos := countEmpty_pos_of_firstEmpty t x y hfe
      obtain ⟨m, hm⟩ : ∃ m, countEmpty t = m + 1 := ⟨countEmpty t - 1, by omega⟩
      have hmf : m ≤ fuel' := by omega
      have sD : ∀ cm t' acc', boardValid t' = true → countEmpty t' ≤ fuel' →
          acc' ≤ (solveRecAux cm fuel' t' acc').1 :=
        fun cm t' acc' h1 h2 =>
          (ih fuel' (Nat.lt_succ_self fuel') t' h1 h2).1 cm acc'
      have sA : ∀ t' acc', boardValid t' = true → countEmpty t' ≤ fuel' →
          (solveRecAux true fuel' t' acc').2 = t' :=
        fun t' acc' h1 h2 =>
          (ih fuel' (Nat.lt_succ_self fuel') t' h1 h2).2.1 acc'
      have sB : ∀ t', boardValid t' = true → countEmpty t' ≤ fuel' →
          (solveRecAux false fuel' t' 0).1 = 0 →
          (solveRecAux false fuel' t' 0).2 = t' :=
        fun t' h1 h2 => (ih fuel' (Nat.lt_succ_self fuel') t' h1 h2).2.2.1
      have sC : ∀ cm t' acc', boardValid t' = true → countEmpty t' ≤ fuel' →
          solveRecAux cm fuel' t' acc' =
            solveRecAux cm (countEmpty t') t' acc' :=
        fun cm t' acc' h1 h2 =>
          (ih fuel' (Nat.lt_succ_self fuel') t' h1 h2).2.2.2 cm acc'
      have sDm : ∀ cm t' acc', boardValid t' = true → countEmpty t' ≤ m →
          acc' ≤ (solveRecAux cm m t' acc').1 :=
        fun cm t' acc' h1 h2 => (ih m (by omega) t' h1 h2).1 cm acc'
      have sAm : ∀ t' acc', boardValid t' = true → countEmpty t' ≤ m →
          (solveRecAux true m t' acc').2 = t' :=
        fun t' acc' h1 h2 => (ih m (by omega) t' h1 h2).2.1 acc'
      have sBm : ∀ t', boardValid t' = true → countEmpty t' ≤ m →
          (solveRecAux false m t' 0).1 = 0 →
          (solveRecAux false m t' 0).2 = t' :=
        fun t' h1 h2 => (ih m (by omega) t' h1 h2).2.2.1
      have hcnt1 : countEmpty t ≤ fuel' + 1 := hc
      have hcntm : countEmpty t ≤ m + 1 := by omega
      have blockR := fun cm acc =>
        solveStep_block cm fuel' t x y TangoTile.Red acc hv hx hy hcur
          (by decide) hcnt1 (sD cm) (fun _ => sA) (fun _ => sB)
      have blockB := fun cm acc =>
        solveStep_block cm fuel' t x y TangoTile.Blue acc hv hx hy hcur
          (by decide) hcnt1 (sD cm) (fun _ => sA) (fun _ => sB)
      have blockRm := fun cm acc =>
        solveStep_block cm m t x y TangoTile.Red acc hv hx hy hcur
          (by decide) hcntm (sDm cm) (fun _ => sAm) (fun _ => sBm)
      refine ⟨?_, ?_, ?_, ?_⟩
      · intro cm acc
        rw [solveRecAux_succ_some cm fuel' t acc x y hfe]
        rcases blockR cm acc with ⟨res, _, hares, _, hstep⟩ |
            ⟨acc1, hle1, _, hstep⟩
        · simp only [hstep]
          exact hares
        · simp only [hstep]
          rcases blockB cm acc1 with ⟨res2, _, hares2, _, hstep2⟩ |
              ⟨acc2, hle2, _, hstep2⟩
          · simp only [hstep2]
            exact Nat.le_trans hle1 hares2
          · simp only [hstep2]
            exact Nat.le_trans hle1 hle2
      · intro acc
        rw [solveRecAux_succ_some true fuel' t acc x y hfe]
        rcases blockR true acc with ⟨res, _, _, hcmf, _⟩ |
            ⟨acc1, _, _, hstep⟩
        · exact absurd hcmf (by simp)
        · simp only [hstep]
          rcases blockB true acc1 with ⟨res2, _, _, hcmf2, _⟩ |
              ⟨acc2, _, _, hstep2⟩
          · exact absurd hcmf2 (by simp)
          · simp only [hstep2]
      · intro hres0
        rw [solveRecAux_succ_some false fuel' t 0 x y hfe] at hres0 ⊢
        rcases blockR false 0 with ⟨res, hpos2, _, _, hstep⟩ |
            ⟨acc1, _, hacc1, hstep⟩
        · simp only [hstep] at hres0
          omega
        · have hacc1' : acc1 = 0 := hacc1 rfl
          subst hacc1'
          simp only [hstep] at hres0 ⊢
          rcases blockB false 0 with ⟨res2, hpos3, _, _, hstep2⟩ |
              ⟨acc2, _, hacc2, hstep2⟩
          · simp only [hstep2] at hres0
            omega
          · simp only [hstep2]
      · intro cm acc
        rw [hm, solveRecAux_succ_some cm fuel' t acc x y hfe,
          solveRecAux_succ_some cm m t acc x y hfe]
        cases hs : (t.setTile x y TangoTile.Red).1 with
        | false =>
          simp only [solveStep_fail hs,
            Tango.setTile_empty_self t hx hy hv hcur]
          cases hsB : (t.setTile x y TangoTile.Blue).1 with
          | false =>
            simp only [solveStep_fail hsB,
              Tango.setTile_empty_self t hx hy hv hcur]
          | true =>
            have hvB := Tango.setTile_boardValid t x y TangoTile.Blue hv
            have hdB := countEmpty_setTile t TangoTile.Blue (by decide)
              hx hy hcur hsB
            have hmB : countEmpty (t.setTile x y TangoTile.Blue).2 = m := by
              omega
            have heqB : solveRecAux cm fuel'
                (t.setTile x y TangoTile.Blue).2 acc =
                solveRecAux cm m (t.setTile x y TangoTile.Blue).2 acc := by
              rw [sC cm _ acc hvB (by omega), hmB]
            simp only [heqB]
        | true =>
          have hvR := Tango.setTile_boardValid t x y TangoTile.Red hv
          have hdR := countEmpty_setTile t TangoTile.Red (by decide)
            hx hy hcur hs
          have hmR : countEmpty (t.setTile x y TangoTile.Red).2 = m := by
            omega
          have heqR : solveRecAux cm fuel'
              (t.setTile x y TangoTile.Red).2 acc =
              solveRecAux cm m (t.setTile x y TangoTile.Red).2 acc := by
            rw [sC cm _ acc hvR (by omega), hmR]
          simp only [heqR]
          rcases blockRm cm acc with ⟨res, _, _, _, hstep⟩ |
              ⟨acc1, _, _, hstep⟩
          · simp only [hstep]
          · simp only [hstep]
            cases hsB : (t.setTile x y TangoTile.Blue).1 with
            | false =>
              simp only [solveStep_fail hsB]
            | true =>
              have hvB := Tango.setTile_boardValid t x y TangoTile.Blue hv
              have hdB := countEmpty_setTile t TangoTile.Blue (by decide)
                hx hy hcur hsB
              have hmB : countEmpty (t.setTile x y TangoTile.Blue).2 = m := by
                omega
              have heqB : solveRecAux cm fuel'
                  (t.setTile x y TangoTile.Blue).2 acc1 =
                  solveRecAux cm m (t.setTile x y TangoTile.Blue).2 acc1 := by
                rw [sC cm _ acc1 hvB (by omega), hmB]
              simp only [heqB]

/-! The generator. `TangoGenerator::new` precomputes the neighbor-pair list
with `itertools::iproduct` (outer iterator varies slowest) and `zip`;
`generate_one_solution_tango` is a rejection-sampling loop over `generate()`,
whose random draws the embedding abstracts as an explicit sequence of
candidate boards. -/

/-- Model of `itertools::iproduct!(as, bs)`: all pairs, first component slowest. -/
def iproduct (as bs : List Nat) : List (Nat × Nat) :=
  as.flatMap fun a => bs.map fun b => (a, b)

/-- The generator state: dimensions plus the precomputed neighbor pairs. -/
structure TangoGenerator where
  width : Nat
  height : Nat
  neighborPairs : List ((Nat × Nat) × (Nat × Nat))

/-- Rust `TangoGenerator::new`: `iproduct!(0..w-1, 0..h).zip(iproduct!(1..w, 0..h))`
chained with `iproduct!(0..w, 0..h-1).zip(iproduct!(0..w, 1..h))`. -/
def TangoGenerator.new (width height : Nat) : TangoGenerator :=
  { width := width
    height := height
    neighborPairs :=
      ((iproduct (List.range (width - 1)) (List.range height)).zip
        (iproduct (List.range' 1 (width - 1)) (List.range height))) ++
      ((iproduct (List.range width) (List.range (height - 1))).zip
        (iproduct (List.range width) (List.range' 1 (height - 1)))) }

/-- Rust `TangoGenerator::generate_one_solution_tango`, with the stream of
candidate boards produced by `generate()` abstracted as `draws` (the source
draws them from a non-seedable random generator) and the unbounded `loop`
rendered with a fuel bound on the number of attempts. Each attempt counts the
completions of a copy of the candidate and accepts exactly when the count
is 1; the accepted candidate is returned as seeded (the subsequent find-one
run in the source mutates only the solver's copy, which is dropped). -/
def TangoGenerator.generateOneSolutionTango (draws : Nat → Tango) :
    Nat → Nat → Option Tango
  | 0, _ => none
  | fuel + 1, i =>
      let tango := draws i
      let solutionCount := (RecursiveTangoSolver.solve true tango).1
      if solutionCount = 1 then some tango
      else TangoGenerator.generateOneSolutionTango draws fuel (i + 1)

theorem iproduct_eq_product (as bs : List Nat) :
    iproduct as bs = as ×ˢ bs := rfl

theorem zip_self_map {α β : Type} : ∀ (l : List α) (f : α → β),
    l.zip (l.map f) = l.map fun x => (x, f x)
  | [], _ => rfl
  | a :: l, f => by
    simp only [List.map_cons, List.zip_cons_cons]
    rw [zip_self_map l f]

theorem iproduct_shift_left (n h : Nat) :
    iproduct (List.range' 1 n) (List.range h) =
      (iproduct (List.range n) (List.range h)).map fun p => (p.1 + 1, p.2) := by
  rw [List.range'_eq_map_range]
  unfold iproduct
  rw [List.flatMap_map, List.map_flatMap]
  congr 1
  funext a
  rw [List.map_map]
  congr 1
  funext b
  simp [Nat.add_comm]

theorem iproduct_shift_right (w n : Nat) :
    iproduct (List.range w) (List.range' 1 n) =
      (iproduct (List.range w) (List.range n)).map fun p => (p.1, p.2 + 1) := by
  rw [List.range'_eq_map_range]
  unfold iproduct
  rw [List.map_flatMap]
  congr 1
  funext a
  rw [List.map_map, List.map_map]
  congr 1
  funext b
  simp [Nat.add_comm]

theorem neighborPairs_eq (w h : Nat) :
    (TangoGenerator.new w h).neighborPairs =
      ((iproduct (List.range (w - 1)) (List.range h)).map
        fun p => (p, (p.1 + 1, p.2))) ++
      ((iproduct (List.range w) (List.range (h - 1))).map
        fun p => (p, (p.1, p.2 + 1))) := by
  show (((iproduct (List.range (w - 1)) (List.range h)).zip
        (iproduct (List.range' 1 (w - 1)) (List.range h))) ++
      ((iproduct (List.range w) (List.range (h - 1))).zip
        (iproduct (List.range w) (List.range' 1 (h - 1))))) = _
  rw [iproduct_shift_left, iproduct_shift_right, zip_self_map, zip_self_map]

theorem mem_neighborPairs (w h : Nat) (p : (Nat × Nat) × (Nat × Nat)) :
    p ∈ (TangoGenerator.new w h).neighborPairs ↔
      (∃ x y, x + 1 < w ∧ y < h ∧ p = ((x, y), (x + 1, y))) ∨
      (∃ x y, x < w ∧ y + 1 < h ∧ p = ((x, y), (x, y + 1))) := by
  rw [neighborPairs_eq, List.mem_append, List.mem_map, List.mem_map]
  constructor
  · rintro (⟨⟨qx, qy⟩, hq, rfl⟩ | ⟨⟨qx, qy⟩, hq, rfl⟩)
    · rw [iproduct_eq_product, List.mem_product, List.mem_range,
        List.mem_range] at hq
      exact Or.inl ⟨qx, qy, by omega, hq.2, rfl⟩
    · rw [iproduct_eq_product, List.mem_product, List.mem_range,
        List.mem_range] at hq
      exact Or.inr ⟨qx, qy, hq.1, by omega, rfl⟩
  · rintro (⟨x, y, hx, hy, rfl⟩ | ⟨x, y, hx, hy, rfl⟩)
    · refine Or.inl ⟨(x, y), ?_, rfl⟩
      rw [iproduct_eq_product, List.mem_product, List.mem_range,
        List.mem_range]
      exact ⟨by omega, hy⟩
    · refine Or.inr ⟨(x, y), ?_, rfl⟩
      rw [iproduct_eq_product, List.mem_product, List.mem_range,
        List.mem_range]
      exact ⟨hx, by omega⟩

theorem nodup_neighborPairs (w h : Nat) :
    (TangoGenerator.new w h).neighborPairs.Nodup := by
  rw [neighborPairs_eq]
  refine List.Nodup.append ?_ ?_ ?_
  · refine List.Nodup.map (fun a b hab => congrArg Prod.fst hab) ?_
    rw [iproduct_eq_product]
    exact (List.nodup_range _).product (List.nodup_range _)
  · refine List.Nodup.map (fun a b hab => congrArg Prod.fst hab) ?_
    rw [iproduct_eq_product]
    exact (List.nodup_range _).product (List.nodup_range _)
  · rw [List.disjoint_left]
    rintro p hp1 hp2
    rw [List.mem_map] at hp1 hp2
    obtain ⟨⟨ax, ay⟩, -, rfl⟩ := hp1
    obtain ⟨⟨bx, by'⟩, -, hpe⟩ := hp2
    obtain ⟨h1, h2⟩ := Prod.mk.injEq .. ▸ hpe
    obtain ⟨h11, h12⟩ := Prod.mk.injEq .. ▸ h1
    obtain ⟨h21, h22⟩ := Prod.mk.injEq .. ▸ h2
    omega

theorem length_neighborPairs (w h : Nat) :
    (TangoGenerator.new w h).neighborPairs.length =
      (w - 1) * h + w * (h - 1) := by
  rw [neighborPairs_eq, List.length_append, List.length_map, List.length_map,
    iproduct_eq_product, iproduct_eq_product, List.length_product,
    List.length_product, List.length_range, List.length_range,
    List.length_range, List.length_range]

/-! Concrete boards used to exercise the theorems. -/

/-- The fully empty 2×2 board with no restrictions. -/
def t22 : Tango :=
  { grid := { width := 2
              height := 2
              tiles := List.replicate 4 TangoTile.Empty
              hlen := rfl }
    restrictions := [] }

/-- A completely and validly filled 2×2 board (a checkerboard). -/
def t22full : Tango :=
  { grid := { width := 2
              height := 2
              tiles := [TangoTile.Red, TangoTile.Blue,
                        TangoTile.Blue, TangoTile.Red]
              hlen := rfl }
    restrictions := [] }

/-- C1: whenever `generate_one_solution_tango` returns (for any sequence of
random draws that lets its rejection-sampling loop terminate), the returned
as-seeded board is one on which a count-completions run yields exactly 1. -/
theorem c1_generate_one_solution_unique (draws : Nat → Tango) (fuel : Nat) :
    ∀ (i : Nat) (t : Tango),
      TangoGenerator.generateOneSolutionTango draws fuel i = some t →
      (RecursiveTangoSolver.solve true t).1 = 1 := by
  induction fuel with
  | zero =>
    intro i t h
    exact absurd h (by simp [TangoGenerator.generateOneSolutionTango])
  | succ fuel ih =>
    intro i t h
    simp only [TangoGenerator.generateOneSolutionTango] at h
    by_cases hc : (RecursiveTangoSolver.solve true (draws i)).1 = 1
    · rw [if_pos hc] at h
      cases h
      exact hc
    · rw [if_neg hc] at h
      exact ih (i + 1) t h

/-- C1 witness: a constant stream of the filled 2×2 checkerboard board (which
has exactly one completion, itself) is accepted on the first attempt. -/
theorem c1_generate_one_solution_unique_witness :
    (RecursiveTangoSolver.solve true t22full).1 = 1 :=
  c1_generate_one_solution_unique (fun _ => t22full) 1 0 t22full (by decide)

/-- C2: `set_tile` is atomic — on failure the board (grid and restriction
list) is exactly as before; on success the target cell holds the new tile and
every other cell and the restriction list are unchanged. -/
theorem c2_setTile_atomic (t : Tango) (x y : Nat) (tile : TangoTile) :
    ((t.setTile x y tile).1 = false → (t.setTile x y tile).2 = t) ∧
    ((t.setTile x y tile).1 = true →
      (t.setTile x y tile).2.getTile x y = some tile ∧
      (∀ x' y', ¬(x' = x ∧ y' = y) →
        (t.setTile x y tile).2.getTile x' y' = t.getTile x' y') ∧
      (t.setTile x y tile).2.restrictions = t.restrictions) := by
  refine ⟨Tango.setTile_fail t x y tile, ?_⟩
  intro hs
  obtain ⟨hb, hrow, hcol, -⟩ := Tango.setTile_succ t x y tile hs
  have hy : y < t.grid.height := by
    have h1 := (t.setCell x y tile).isValidRow_lt y hrow
    rw [Tango.setCell_height] at h1
    exact h1
  have hx : x < t.grid.width := by
    have h1 := (t.setCell x y tile).isValidColumn_lt x hcol
    rw [Tango.setCell_width] at h1
    exact h1
  rw [hb]
  exact ⟨Tango.getTile_setCell_same t tile hx hy,
    fun x' y' hne => Tango.getTile_setCell_other t tile x' y' hne, rfl⟩

/-- C2 witness: a rejected write (second Red in a width-2 row) leaves the
board unchanged, and an accepted write lands in the target cell. -/
theorem c2_setTile_atomic_witness :
    (((t22.setTile 0 0 TangoTile.Red).2.setTile 1 0 TangoTile.Red).2 =
      (t22.setTile 0 0 TangoTile.Red).2) ∧
    (t22.setTile 0 0 TangoTile.Red).2.getTile 0 0 = some TangoTile.Red :=
  ⟨(c2_setTile_atomic (t22.setTile 0 0 TangoTile.Red).2 1 0
      TangoTile.Red).1 (by decide),
   ((c2_setTile_atomic t22 0 0 TangoTile.Red).2 (by decide)).1⟩

/-- C3: every board reachable through the public API (constructed by `new`,
mutated only via `set_tile`) has no row or column run of three equal
non-empty tiles, per-color row/column tallies at most half the length, and
every restriction with two non-empty endpoints satisfied. -/
theorem c3_reachable_invariant (t : Tango) (h : Reachable t) :
    (∀ y, y < t.grid.height →
      hasRun3 (rowTiles t y) = false ∧
      (rowTiles t y).count TangoTile.Red ≤ t.grid.width / 2 ∧
      (rowTiles t y).count TangoTile.Blue ≤ t.grid.width / 2) ∧
    (∀ x, x < t.grid.width →
      hasRun3 (colTiles t x) = false ∧
      (colTiles t x).count TangoTile.Red ≤ t.grid.height / 2 ∧
      (colTiles t x).count TangoTile.Blue ≤ t.grid.height / 2) ∧
    (∀ r ∈ t.restrictions, restrictionHolds t r) := by
  have hv := reachable_boardValid t h
  obtain ⟨h1, h2, h3⟩ := (boardValid_iff t).mp hv
  refine ⟨fun y hy => (t.isValidRow_iff y hy).mp (h1 y hy),
    fun x hx => (t.isValidColumn_iff x hx).mp (h2 x hx), ?_⟩
  intro r hr
  apply restrictionOk_holds
  unfold Tango.checkRestrictions at h3
  exact List.all_eq_true.mp h3 r hr

/-- C3 witness: the invariant instantiated at the freshly constructed empty
2×2 board. -/
theorem c3_reachable_invariant_witness :
    (∀ y, y < t22.grid.height →
      hasRun3 (rowTiles t22 y) = false ∧
      (rowTiles t22 y).count TangoTile.Red ≤ t22.grid.width / 2 ∧
      (rowTiles t22 y).count TangoTile.Blue ≤ t22.grid.width / 2) ∧
    (∀ x, x < t22.grid.width →
      hasRun3 (colTiles t22 x) = false ∧
      (colTiles t22 x).count TangoTile.Red ≤ t22.grid.height / 2 ∧
      (colTiles t22 x).count TangoTile.Blue ≤ t22.grid.height / 2) ∧
    (∀ r ∈ t22.restrictions, restrictionHolds t22 r) :=
  c3_reachable_invariant t22 (Reachable.base 2 2 [] t22 rfl)

/-- C4: for in-bounds indices, `is_valid_row` holds exactly when the row has
no three consecutive equal non-empty tiles and neither color exceeds
`width / 2`; symmetrically for `is_valid_column` with `height / 2`. -/
theorem c4_valid_row_column_iff (t : Tango) (x y : Nat)
    (hy : y < t.grid.height) (hx : x < t.grid.width) :
    (t.isValidRow y = true ↔
      (hasRun3 (rowTiles t y) = false ∧
       (rowTiles t y).count TangoTile.Red ≤ t.grid.width / 2 ∧
       (rowTiles t y).count TangoTile.Blue ≤ t.grid.width / 2)) ∧
    (t.isValidColumn x = true ↔
      (hasRun3 (colTiles t x) = false ∧
       (colTiles t x).count TangoTile.Red ≤ t.grid.height / 2 ∧
       (colTiles t x).count TangoTile.Blue ≤ t.grid.height / 2)) :=
  ⟨t.isValidRow_iff y hy, t.isValidColumn_iff x hx⟩

/-- C4 witness: the equivalence at the empty 2×2 board, row 0 and column 0. -/
theorem c4_valid_row_column_iff_witness :
    (t22.isValidRow 0 = true ↔
      (hasRun3 (rowTiles t22 0) = false ∧
       (rowTiles t22 0).count TangoTile.Red ≤ t22.grid.width / 2 ∧
       (rowTiles t22 0).count TangoTile.Blue ≤ t22.grid.width / 2)) ∧
    (t22.isValidColumn 0 = true ↔
      (hasRun3 (colTiles t22 0) = false ∧
       (colTiles t22 0).count TangoTile.Red ≤ t22.grid.height / 2 ∧
       (colTiles t22 0).count TangoTile.Blue ≤ t22.grid.height / 2)) :=
  c4_valid_row_column_iff t22 0 0 (by decide) (by decide)

/-- C5 counterexample: on the empty 2×2 board, find-one mode returns with the
solver's board holding the completed filling, not the pre-call state — the
early-return path skips the reset, so the claim fails as stated. -/
theorem c5_findOne_mutates_counterexample :
    (RecursiveTangoSolver.solve false t22).2 ≠ t22 := by decide

/-- C5 amended: for boards satisfying the placement invariants (as every
board the program hands to a solver does), count-completions mode returns
with the board exactly as before the call, and find-one mode does so whenever
it finds no completion; on find-one success the board instead holds the
completed filling. -/
theorem c5_solver_restores_board (t : Tango) (hv : boardValid t = true) :
    (RecursiveTangoSolver.solve true t).2 = t ∧
    ((RecursiveTangoSolver.solve false t).1 = 0 →
      (RecursiveTangoSolver.solve false t).2 = t) := by
  have hs := solveRecAux_spec (countEmpty t) t hv (Nat.le_refl _)
  exact ⟨hs.2.1 0, hs.2.2.1⟩

/-- C5 witness: the amended restoration property at the empty 2×2 board. -/
theorem c5_solver_restores_board_witness :
    (RecursiveTangoSolver.solve true t22).2 = t22 :=
  (c5_solver_restores_board t22 (by decide)).1

/-- C6: count-completions on the fully empty 2×2 board with no restrictions
returns exactly 2. -/
theorem c6_count_empty_2x2 :
    Tango.new 2 2 [] = Except.ok t22 ∧
    (RecursiveTangoSolver.solve true t22).1 = 2 :=
  ⟨rfl, by decide⟩

/-- C7: construction fails exactly for a zero or odd dimension; on success
the grid is all-`Empty` of size `width * height` and the restriction list is
stored as given (no bounds validation). -/
theorem c7_new_spec (w h : Nat) (r : List TangoRestriction) :
    ((w = 0 ∨ h = 0 ∨ w % 2 ≠ 0 ∨ h % 2 ≠ 0) →
      ∃ msg, Tango.new w h r = Except.error msg) ∧
    (¬(w = 0 ∨ h = 0 ∨ w % 2 ≠ 0 ∨ h % 2 ≠ 0) →
      ∃ t, Tango.new w h r = Except.ok t) ∧
    (∀ t, Tango.new w h r = Except.ok t →
      t.grid.width = w ∧ t.grid.height = h ∧
      t.grid.tiles = List.replicate (w * h) TangoTile.Empty ∧
      t.restrictions = r) := by
  refine ⟨Tango.new_err w h r, ?_, ?_⟩
  · intro hgood
    push_neg at hgood
    unfold Tango.new
    rw [if_neg (by tauto), if_neg (by tauto)]
    exact ⟨_, rfl⟩
  · intro t hok
    obtain ⟨h1, h2, h3, h4, -⟩ := Tango.new_ok w h r t hok
    exact ⟨h1, h2, h3, h4⟩

/-- C7 witness: an odd width is rejected, 2×2 is accepted, and the accepted
board is the all-empty one with its restrictions stored as given. -/
theorem c7_new_spec_witness :
    (∃ msg, Tango.new 3 2 [] = Except.error msg) ∧
    (∃ t, Tango.new 2 2 [] = Except.ok t) ∧
    (t22.grid.width = 2 ∧ t22.grid.height = 2 ∧
      t22.grid.tiles = List.replicate (2 * 2) TangoTile.Empty ∧
      t22.restrictions = []) :=
  ⟨(c7_new_spec 3 2 []).1 (by decide),
   (c7_new_spec 2 2 []).2.1 (by decide),
   (c7_new_spec 2 2 []).2.2 t22 rfl⟩

/-- C8: the search terminates — a successful placement at the first empty
cell strictly decreases the number of empty cells (so the recursion depth is
bounded by the cell count), and on valid boards any fuel at or above the
number of empty cells yields the entry point's result, in both modes. -/
theorem c8_termination :
    (∀ (t : Tango) (x y : Nat) (c : TangoTile),
      t.firstEmpty = some (x, y) → c ≠ TangoTile.Empty →
      (t.setTile x y c).1 = true →
      countEmpty (t.setTile x y c).2 + 1 = countEmpty t) ∧
    (∀ (cm : Bool) (t : Tango) (fuel : Nat), boardValid t = true →
      countEmpty t ≤ fuel →
      solveRecAux cm fuel t 0 = RecursiveTangoSolver.solve cm t) := by
  constructor
  · intro t x y c hfe hc hs
    obtain ⟨hx, hy, hcell⟩ := t.firstEmpty_some x y hfe
    exact countEmpty_setTile t c hc hx hy (tileAtD_of_getTile t hcell) hs
  · intro cm t fuel hv hcnt
    exact (solveRecAux_spec fuel t hv hcnt).2.2.2 cm 0

/-- C8 witness: placing Red at the first empty cell of the empty 2×2 board
drops the empty count from 4 to 3, and fuel 9 computes the same count-mode
result as the entry point's fuel 4. -/
theorem c8_termination_witness :
    countEmpty (t22.setTile 0 0 TangoTile.Red).2 + 1 = countEmpty t22 ∧
    solveRecAux true 9 t22 0 = RecursiveTangoSolver.solve true t22 :=
  ⟨c8_termination.1 t22 0 0 TangoTile.Red (by decide) (by decide) (by decide),
   c8_termination.2 true t22 9 (by decide) (by decide)⟩

/-- C9: for positive dimensions the precomputed neighbor-pair list contains
exactly the in-bounds right-neighbor and below-neighbor pairs, with no
duplicates, and its length is `(w-1)*h + w*(h-1)`. -/
theorem c9_neighborPairs_spec (w h : Nat) (hw : 0 < w) (hh : 0 < h) :
    (∀ p, p ∈ (TangoGenerator.new w h).neighborPairs ↔
      (∃ x y, x + 1 < w ∧ y < h ∧ p = ((x, y), (x + 1, y))) ∨
      (∃ x y, x < w ∧ y + 1 < h ∧ p = ((x, y), (x, y + 1)))) ∧
    (TangoGenerator.new w h).neighborPairs.Nodup ∧
    (TangoGenerator.new w h).neighborPairs.length =
      (w - 1) * h + w * (h - 1) :=
  ⟨fun p => mem_neighborPairs w h p, nodup_neighborPairs w h,
   length_neighborPairs w h⟩

/-- C9 witness: the 2×2 generator's pair list has the predicted length. -/
theorem c9_neighborPairs_spec_witness :
    (TangoGenerator.new 2 2).neighborPairs.length =
      (2 - 1) * 2 + 2 * (2 - 1) :=
  (c9_neighborPairs_spec 2 2 (by decide) (by decide)).2.2

/-- C10: an out-of-bounds `set_tile` (any tile value, including `Empty`)
returns failure and leaves the board unchanged: the write is dropped by
`get_mut`, and the validity check of the out-of-range row or column fails. -/
theorem c10_setTile_out_of_bounds (t : Tango) (x y : Nat)
    (tile : TangoTile) (h : t.grid.width ≤ x ∨ t.grid.height ≤ y) :
    t.setTile x y tile = (false, t) := by
  have hob : ¬(x < t.grid.width ∧ y < t.grid.height) := by
    rcases h with h | h
    · exact fun hc => absurd hc.1 (Nat.not_lt.mpr h)
    · exact fun hc => absurd hc.2 (Nat.not_lt.mpr h)
  have hcond : (t.isValidRow y && t.isValidColumn x &&
      t.checkRestrictions) = false := by
    rcases h with h | h
    · have hcol : t.isValidColumn x = false := by
        unfold Tango.isValidColumn
        rw [if_pos h]
      simp [hcol]
    · have hrow : t.isValidRow y = false := by
        unfold Tango.isValidRow
        rw [if_pos h]
      simp [hrow]
  rw [Tango.setTile_eq, Tango.setCell_out t tile hob,
    if_neg (by rw [hcond]; simp), Tango.setCell_out t _ hob]

/-- C10 witness: writing at column 5 of the 2×2 board fails and changes
nothing. -/
theorem c10_setTile_out_of_bounds_witness :
    t22.setTile 5 0 TangoTile.Red = (false, t22) :=
  c10_setTile_out_of_bounds t22 5 0 TangoTile.Red (Or.inl (by decide))
